import Mathlib

/-!
# abmash: `javascript-prototypes.js`

A shallow embedding of the three page utilities of
`src/main/resources/js/javascript-prototypes.js`:

* `String.prototype.contains`,
* the `setZeroTimeout` / `handleMessage` deferral shim,
* the `window.onerror` reporter,

together with the parts of the host (strings, the message queue of the window,
the attribute lists of the document) that the code touches.
-/

set_option autoImplicit false

namespace Abmash

/-! ## Strings -/

/-- A JavaScript string: a finite sequence of UTF-16 code units. -/
abbrev JSString := List Nat

/-- UTF-16 code units of one character. -/
def utf16 (c : Char) : List Nat :=
  if c.toNat < 0x10000 then [c.toNat]
  else [0xD800 + (c.toNat - 0x10000) / 0x400, 0xDC00 + (c.toNat - 0x10000) % 0x400]

/-- A string literal of the source as a JavaScript string. -/
def js (s : String) : JSString :=
  (s.toList.map utf16).flatten

/-- The host operation `StringIndexOf(string, searchValue, fromIndex)` of ECMAScript:
the empty search value is found at `fromIndex`; otherwise the smallest `i` with
`fromIndex ≤ i ≤ len - searchLen` whose substring of length `searchLen` is the
search value; `-1` when there is none. -/
def StringIndexOf (string searchValue : JSString) (fromIndex : Nat) : Int :=
  let len := string.length
  if searchValue = [] ∧ fromIndex ≤ len then (fromIndex : Int)
  else
    let searchLen := searchValue.length
    match (List.range (len + 1)).find?
        (fun i => decide (fromIndex ≤ i ∧ i + searchLen ≤ len)
          && decide ((string.drop i).take searchLen = searchValue)) with
    | some i => (i : Int)
    | none => -1

/-- The host method `String.prototype.indexOf(searchString)` with no position
argument: the search starts at index 0. -/
def indexOf (this searchString : JSString) : Int :=
  StringIndexOf this searchString 0

/-- Source line 1:
`String.prototype.contains = function(it) { return this.indexOf(it) != -1; };` -/
def contains (this it : JSString) : Bool :=
  indexOf this it != -1

/-! ## The deferral shim (source lines 5 to 31) -/

/-- A function object handed to `setZeroTimeout`, known by its identity. -/
abbrev Callback := Nat

/-- The value of `event.source`: the page's own `window`, or anything else
(another window, a port, `null`). `==` on these is identity. -/
inductive Source where
  | window
  | other (id : Nat)
  deriving DecidableEq, Repr

/-- A value that a message can carry (anything the host can clone), told apart
as far as `==` against a string can tell values apart. -/
inductive JSValue where
  /-- A String. -/
  | string (s : JSString)
  /-- An object, known by what ToPrimitive yields for it: the String `s` (an
  array yields its elements joined by commas, so `["abc"]` yields `abc`; a String
  object yields its string), or `none` for a value that is no String. -/
  | object (primitive : Option JSString)
  /-- Any other value: `undefined`, `null`, a Boolean, a Number or a BigInt. -/
  | other
  deriving DecidableEq, Repr

/-- A message posted to the window and not yet dispatched. -/
structure Message where
  source : Source
  data : JSValue
  deriving DecidableEq, Repr

/-- The `message` event handed to a listener. `propagationStopped` records
whether `stopPropagation()` has been called on it. -/
structure Event where
  source : Source
  data : JSValue
  propagationStopped : Bool
  deriving DecidableEq, Repr

/-- What a callback can do to the shim while it runs: the closure hides
`timeouts`, so a script reaches it only through `window.setZeroTimeout`, and
reaches the message queue of the window through `window.postMessage`. -/
inductive Action where
  | setZeroTimeout (fn : Callback)
  | postMessage (data : JSValue)
  deriving DecidableEq, Repr

/-- The scripts of the page: `b n fn` lists, in order, the calls that callback
`fn` makes when it is run as the invocation number `n` (counted from 0). -/
abbrev Behaviour := Nat → Callback → List Action

/-- State of the page as far as the shim is concerned.
`timeouts` is the closure variable of the source; `posted` is the host's queue
of posted, undelivered messages; `invoked` and `passed` are logs: the callbacks
run by `fn()` so far, and the arguments of the calls of `setZeroTimeout` so far. -/
structure Page where
  timeouts : List Callback
  posted : List Message
  invoked : List Callback
  passed : List Callback
  deriving DecidableEq, Repr

/-- Source line 7: `var messageName = "zero-timeout-message";` -/
def messageName : JSString := js "zero-timeout-message"

/-- The test `data == messageName` of source line 18 (IsLooselyEqual of
ECMAScript, with the String `messageName` on the right). A String is compared
code unit by code unit. An object is converted by ToPrimitive first, and the
result compared again. `undefined` and `null` equal only each other; a Boolean,
a Number or a BigInt is compared with the numeric value of the string, and the
sentinel is not a numeric literal, so that comparison fails. -/
def JSValue.eqMessageName : JSValue → Bool
  | JSValue.string s => decide (s = messageName)
  | JSValue.object (some s) => decide (s = messageName)
  | JSValue.object none => false
  | JSValue.other => false

/-- The page right after the file is loaded: `var timeouts = [];`, nothing posted. -/
def Page.initial : Page := ⟨[], [], [], []⟩

/-- The host call `window.postMessage(data, "*")` made by a script of the page:
the message joins the queue of the window, with the window as its source. -/
def postMessage (data : JSValue) (p : Page) : Page :=
  { p with posted := p.posted ++ [⟨Source.window, data⟩] }

/-- Source lines 12 to 15:
`timeouts.push(fn); window.postMessage(messageName, "*");` -/
def setZeroTimeout (fn : Callback) (p : Page) : Page :=
  postMessage (JSValue.string messageName)
    { p with timeouts := p.timeouts ++ [fn], passed := p.passed ++ [fn] }

/-- One call made by a running callback. -/
def perform (a : Action) (p : Page) : Page :=
  match a with
  | Action.setZeroTimeout fn => setZeroTimeout fn p
  | Action.postMessage data => postMessage data p

/-- The calls of a running callback, in order. -/
def performAll (as : List Action) (p : Page) : Page :=
  as.foldl (fun q a => perform a q) p

/-- The call `fn()` of source line 22: the invocation is logged, then the body
of the callback runs. -/
def invoke (b : Behaviour) (fn : Callback) (p : Page) : Page :=
  performAll (b p.invoked.length fn) { p with invoked := p.invoked ++ [fn] }

/-- Source lines 17 to 25:
```
if (event.source == window && event.data == messageName) {
    event.stopPropagation();
    if (timeouts.length > 0) { var fn = timeouts.shift(); fn(); }
}
``` -/
def handleMessage (b : Behaviour) (event : Event) (p : Page) : Page × Event :=
  if event.source = Source.window ∧ event.data.eqMessageName = true then
    let event := { event with propagationStopped := true }
    match p.timeouts with
    | [] => (p, event)
    | fn :: rest => (invoke b fn { p with timeouts := rest }, event)
  else (p, event)

/-- What can happen to the page between two turns of the event loop. -/
inductive Step where
  /-- A script of the page calls `window.setZeroTimeout(fn)`. -/
  | setZeroTimeout (fn : Callback)
  /-- Somebody posts a message to the window (any source, any payload). -/
  | post (m : Message)
  /-- The host dispatches the oldest undelivered message to the listener
  registered by source line 27. -/
  | deliver
  deriving DecidableEq, Repr

/-- One step of the page. -/
def step (b : Behaviour) (s : Step) (p : Page) : Page :=
  match s with
  | Step.setZeroTimeout fn => setZeroTimeout fn p
  | Step.post m => { p with posted := p.posted ++ [m] }
  | Step.deliver =>
    match p.posted with
    | [] => p
    | m :: rest => (handleMessage b ⟨m.source, m.data, false⟩ { p with posted := rest }).1

/-- A finite run of the page. -/
def run (b : Behaviour) (steps : List Step) (p : Page) : Page :=
  steps.foldl (fun q s => step b s q) p

/-- The callbacks a list of calls passes to `setZeroTimeout`, in order. -/
def scheduledBy (as : List Action) : List Callback :=
  as.filterMap (fun a =>
    match a with
    | Action.setZeroTimeout fn => some fn
    | Action.postMessage _ => none)

/-- The messages a list of calls posts, in order. -/
def postedBy (as : List Action) : List Message :=
  as.map (fun a =>
    match a with
    | Action.setZeroTimeout _ => ⟨Source.window, JSValue.string messageName⟩
    | Action.postMessage data => ⟨Source.window, data⟩)

/-- The test of source line 18 on an undelivered message. -/
def Message.isSentinel (m : Message) : Bool :=
  decide (m.source = Source.window ∧ m.data.eqMessageName = true)

/-- The scripts never post, by their own `postMessage`, a payload that passes
the test of source line 18. -/
def Behaviour.Quiet (b : Behaviour) : Prop :=
  ∀ n fn data, Action.postMessage data ∈ b n fn → data.eqMessageName = false

/-- No message posted from outside the shim passes the test of source line 18. -/
def Step.quiet : Step → Bool
  | Step.post m => !m.isSentinel
  | _ => true

/-- From `p` to `q` the page has run the callbacks `inv` and has been passed the
callbacks `sch`, and the queue has moved accordingly. -/
def Extends (p q : Page) (inv sch : List Callback) : Prop :=
  q.invoked = p.invoked ++ inv ∧ q.passed = p.passed ++ sch ∧
    inv ++ q.timeouts = p.timeouts ++ sch

/-- The event the host builds for the message posted by `setZeroTimeout`. -/
def sentinelEvent : Event := ⟨Source.window, JSValue.string messageName, false⟩

/-- The event the host builds when a script of the page calls
`window.postMessage(["zero-timeout-message"], "*")`: the payload is an array,
not the sentinel string, and ToPrimitive turns it into the sentinel text. -/
def arrayEvent : Event := ⟨Source.window, JSValue.object (some messageName), false⟩

/-- The event of a message from another window that carries the sentinel string. -/
def foreignEvent : Event := ⟨Source.other 7, JSValue.string messageName, false⟩

/-- A page used in the examples: three callbacks queued, one already run. -/
def samplePage : Page :=
  { timeouts := [0, 2, 3]
    posted := [⟨Source.window, JSValue.string messageName⟩,
      ⟨Source.window, JSValue.string messageName⟩,
      ⟨Source.window, JSValue.string messageName⟩]
    invoked := [5]
    passed := [5, 0, 2, 3] }

/-- A behaviour used in the examples: callback 0 passes callback 1 to
`setZeroTimeout` whenever it runs; the other callbacks do nothing. -/
def rescheduling : Behaviour :=
  fun _ fn => if fn = 0 then [Action.setZeroTimeout 1] else []

/-- A run used in the examples: two calls, a message from another window that
carries the sentinel text, a message of the page itself with another payload,
then four deliveries. -/
def sampleRun : List Step :=
  [Step.setZeroTimeout 0, Step.setZeroTimeout 2,
    Step.post ⟨Source.other 1, JSValue.string messageName⟩,
    Step.post ⟨Source.window, JSValue.other⟩,
    Step.deliver, Step.deliver, Step.deliver, Step.deliver]

/-! ## The error reporter (source lines 34 to 38) -/

/-- An attribute node: namespace (`none` for the null namespace), local name
and value. -/
structure Attr where
  namespaceURI : Option JSString
  localName : JSString
  value : JSString
  deriving DecidableEq, Repr

/-- An element, as far as the reporter can tell elements apart: whether it is
in the HTML namespace, its qualified name, and its attribute list. -/
structure Element where
  inHTMLNamespace : Bool
  qualifiedName : JSString
  attributes : List Attr
  deriving DecidableEq, Repr

/-- A document: whether it is an HTML document, and its elements in tree order.
A node is referred to by its index in `elements`. -/
structure Document where
  isHTML : Bool
  elements : List Element
  deriving DecidableEq, Repr

/-- The error raised by calling a method on `undefined`. -/
inductive JSError where
  | TypeError
  deriving DecidableEq, Repr

/-- ASCII lowercase of the DOM standard: `A`..`Z` become `a`..`z`. -/
def asciiLowercase (s : JSString) : JSString :=
  s.map (fun c => if 0x41 ≤ c ∧ c ≤ 0x5A then c + 0x20 else c)

/-- The host call `document.createAttribute(localName)`: a fresh attribute in
the null namespace with the empty value; an HTML document lowercases the name.
(The name of source line 35 is a valid attribute name, so the call does not throw.) -/
def createAttribute (doc : Document) (localName : JSString) : Attr :=
  { namespaceURI := none
    localName := if doc.isHTML then asciiLowercase localName else localName
    value := [] }

/-- Whether `getElementsByTagName(qualifiedName)` selects the element: `*`
selects every element; in an HTML document an element of the HTML namespace is
compared with the lowercased name, every other element with the name as given. -/
def Element.hasTagName (doc : Document) (qualifiedName : JSString) (e : Element) : Bool :=
  if qualifiedName = js "*" then true
  else if doc.isHTML ∧ e.inHTMLNamespace then decide (e.qualifiedName = asciiLowercase qualifiedName)
  else decide (e.qualifiedName = qualifiedName)

/-- The host call `document.getElementsByTagName(qualifiedName)`: the selected
nodes in tree order. -/
def getElementsByTagName (doc : Document) (qualifiedName : JSString) : List Nat :=
  (List.range doc.elements.length).filter
    (fun i => match doc.elements[i]? with
      | some e => e.hasTagName doc qualifiedName
      | none => false)

/-- The attribute list after "set an attribute" of the DOM standard: the first
attribute with the namespace and local name of `attr` is replaced in place; when
there is none, `attr` is appended. -/
def setAttribute (attr : Attr) : List Attr → List Attr
  | [] => [attr]
  | a :: as =>
    if a.namespaceURI = attr.namespaceURI ∧ a.localName = attr.localName then attr :: as
    else a :: setAttribute attr as

/-- The host call `element.setAttributeNode(attr)` for an attribute node that
belongs to no element yet. -/
def setAttributeNode (attr : Attr) (e : Element) : Element :=
  { e with attributes := setAttribute attr e.attributes }

/-- The document after node `i` has been changed by `f`. -/
def Document.update (doc : Document) (i : Nat) (f : Element → Element) : Document :=
  { doc with elements :=
      match doc.elements[i]? with
      | some e => doc.elements.set i (f e)
      | none => doc.elements }

/-- Decimal digits of a natural number as code units. -/
def decimal (n : Nat) : JSString :=
  (Nat.toDigits 10 n).map Char.toNat

/-- The decimal numeral of an integer: a minus sign when it is negative, then
the decimal digits of its magnitude. -/
def decimalInt (n : Int) : JSString :=
  if n < 0 then js "-" ++ decimal n.natAbs else decimal n.natAbs

/-- The host conversion `Number::toString` of ECMAScript on an integer-valued
Number, as `+` applies it to `linenumber`. An integer of magnitude at most 2^53
is printed as its decimal numeral. Beyond that the host prints the shortest
digits that round to the same double, with an exponent from 10^21 on; that
rendering is floating-point arithmetic and is left to the parameter `large`. -/
def NumberToString (large : Int → JSString) (n : Int) : JSString :=
  if n.natAbs ≤ 2 ^ 53 then decimalInt n else large n

/-- The text of source line 36:
`msg + "\n  at line number " + linenumber + " (URL: " + url + ")"`. -/
def nodeValue (large : Int → JSString) (msg url : JSString) (linenumber : Int) : JSString :=
  msg ++ js "\n  at line number " ++ NumberToString large linenumber
    ++ js " (URL: " ++ url ++ js ")"

/-- Source lines 34 to 38:
```
var error = document.createAttribute("javaScriptErrorMessage");
error.nodeValue = msg + "\n  at line number " + linenumber + " (URL: " + url + ")";
document.getElementsByTagName("body")[0].setAttributeNode(error);
```
Index 0 of an empty collection is `undefined`, and the method call on it throws. -/
def onerror (large : Int → JSString) (doc : Document) (msg url : JSString)
    (linenumber : Int) : Except JSError Document :=
  let error := createAttribute doc (js "javaScriptErrorMessage")
  let error := { error with value := nodeValue large msg url linenumber }
  match (getElementsByTagName doc (js "body"))[0]? with
  | none => Except.error JSError.TypeError
  | some i => Except.ok (doc.update i (setAttributeNode error))

/-- The attribute node that source lines 35 and 36 build. -/
def errorNode (large : Int → JSString) (doc : Document) (msg url : JSString)
    (linenumber : Int) : Attr :=
  { createAttribute doc (js "javaScriptErrorMessage") with
    value := nodeValue large msg url linenumber }

/-- The first `body` element of the document, when there is one. -/
def Document.body (doc : Document) : Option Element :=
  match (getElementsByTagName doc (js "body"))[0]? with
  | none => none
  | some i => doc.elements[i]?

/-- Whether the attribute carries the name that `createAttribute` gives to
`javaScriptErrorMessage` in this document. -/
def Attr.isErrorMessage (doc : Document) (a : Attr) : Bool :=
  decide (a.namespaceURI = none ∧
    a.localName = (createAttribute doc (js "javaScriptErrorMessage")).localName)

/-- The attribute has the namespace and local name of `attr`. -/
def Attr.sameName (attr a : Attr) : Bool :=
  decide (a.namespaceURI = attr.namespaceURI ∧ a.localName = attr.localName)

/-- The attributes of the element that carry the name of the error attribute. -/
def Element.errorAttributes (doc : Document) (e : Element) : List Attr :=
  e.attributes.filter (Attr.isErrorMessage doc)

/-- No two attributes of the element have the same namespace and local name
(the DOM keeps attribute lists so). -/
def Element.WellFormed (e : Element) : Prop :=
  (e.attributes.map (fun a => (a.namespaceURI, a.localName))).Nodup

/-- A rendering of large Numbers used in the examples; the line numbers there
are small, so it is never consulted. -/
def sampleLarge : Int → JSString := fun _ => js "1e+21"

/-- A document used in the examples: `html`, `head`, and two `body` elements,
the first of which carries a `class` and an earlier error attribute. -/
def sampleDocument : Document :=
  { isHTML := true
    elements :=
      [ ⟨true, js "html", []⟩,
        ⟨true, js "head", []⟩,
        ⟨true, js "body", [⟨none, js "class", js "c"⟩, ⟨none, js "javascripterrormessage", js "old"⟩]⟩,
        ⟨true, js "body", []⟩ ] }

/-- The first `body` element of `sampleDocument`. -/
def sampleBody : Element :=
  ⟨true, js "body", [⟨none, js "class", js "c"⟩, ⟨none, js "javascripterrormessage", js "old"⟩]⟩

/-! ## Lemmas on `contains` -/

theorem contains_iff_find (s t : JSString) :
    contains s t = true ↔
      t = [] ∨ ∃ i, i + t.length ≤ s.length ∧ (s.drop i).take t.length = t := by
  unfold contains indexOf StringIndexOf
  simp only [Nat.zero_le, and_true, true_and]
  by_cases ht : t = []
  · simp [ht]
  · simp only [ht, if_false, false_or]
    constructor
    · intro h
      split at h
      · rename_i i hi
        have := List.find?_some hi
        simp only [Bool.and_eq_true, decide_eq_true_eq] at this
        exact ⟨i, this.1, this.2⟩
      · simp at h
    · rintro ⟨i, hi, hmatch⟩
      split
      · rename_i j hj
        simp only [bne_iff_ne, ne_eq]
        omega
      · rename_i hnone
        rw [List.find?_eq_none] at hnone
        have := hnone i (List.mem_range.mpr (by omega))
        simp [hi, hmatch] at this

theorem infix_iff_window (s t : JSString) :
    t <:+: s ↔ ∃ i, i + t.length ≤ s.length ∧ (s.drop i).take t.length = t := by
  constructor
  · rintro ⟨a, b, rfl⟩
    refine ⟨a.length, ?_, ?_⟩
    · simp only [List.length_append]; omega
    · simp [List.append_assoc]
  · rintro ⟨i, _, hmatch⟩
    refine ⟨s.take i, (s.drop i).drop t.length, ?_⟩
    rw [List.append_assoc]
    nth_rewrite 1 [← hmatch]
    rw [List.take_append_drop, List.take_append_drop]


/-! ## Lemmas on the deferral shim -/

theorem performAll_nil (p : Page) : performAll [] p = p := rfl

theorem performAll_cons (a : Action) (as : List Action) (p : Page) :
    performAll (a :: as) p = performAll as (perform a p) := rfl

theorem performAll_timeouts (as : List Action) (p : Page) :
    (performAll as p).timeouts = p.timeouts ++ scheduledBy as := by
  induction as generalizing p with
  | nil => simp [performAll_nil, scheduledBy]
  | cons a as ih =>
    rw [performAll_cons, ih]
    cases a <;> simp [perform, setZeroTimeout, postMessage, scheduledBy]

theorem performAll_passed (as : List Action) (p : Page) :
    (performAll as p).passed = p.passed ++ scheduledBy as := by
  induction as generalizing p with
  | nil => simp [performAll_nil, scheduledBy]
  | cons a as ih =>
    rw [performAll_cons, ih]
    cases a <;> simp [perform, setZeroTimeout, postMessage, scheduledBy]

theorem performAll_invoked (as : List Action) (p : Page) :
    (performAll as p).invoked = p.invoked := by
  induction as generalizing p with
  | nil => rfl
  | cons a as ih =>
    rw [performAll_cons, ih]
    cases a <;> simp [perform, setZeroTimeout, postMessage]

theorem performAll_posted (as : List Action) (p : Page) :
    (performAll as p).posted = p.posted ++ postedBy as := by
  induction as generalizing p with
  | nil => simp [performAll_nil, postedBy]
  | cons a as ih =>
    rw [performAll_cons, ih]
    cases a <;> simp [perform, setZeroTimeout, postMessage, postedBy]

theorem invoke_timeouts (b : Behaviour) (fn : Callback) (p : Page) :
    (invoke b fn p).timeouts = p.timeouts ++ scheduledBy (b p.invoked.length fn) := by
  simp [invoke, performAll_timeouts]

theorem invoke_passed (b : Behaviour) (fn : Callback) (p : Page) :
    (invoke b fn p).passed = p.passed ++ scheduledBy (b p.invoked.length fn) := by
  simp [invoke, performAll_passed]

theorem invoke_invoked (b : Behaviour) (fn : Callback) (p : Page) :
    (invoke b fn p).invoked = p.invoked ++ [fn] := by
  simp [invoke, performAll_invoked]

theorem invoke_posted (b : Behaviour) (fn : Callback) (p : Page) :
    (invoke b fn p).posted = p.posted ++ postedBy (b p.invoked.length fn) := by
  simp [invoke, performAll_posted]

theorem handleMessage_of_not_sentinel (b : Behaviour) (e : Event) (p : Page)
    (h : ¬ (e.source = Source.window ∧ e.data.eqMessageName = true)) :
    handleMessage b e p = (p, e) := by
  unfold handleMessage
  rw [if_neg h]

theorem handleMessage_sentinel_nil (b : Behaviour) (e : Event) (p : Page)
    (h : e.source = Source.window ∧ e.data.eqMessageName = true) (ht : p.timeouts = []) :
    handleMessage b e p = (p, { e with propagationStopped := true }) := by
  unfold handleMessage
  rw [if_pos h]
  simp only [ht]

theorem handleMessage_sentinel_cons (b : Behaviour) (e : Event) (p : Page)
    (fn : Callback) (rest : List Callback)
    (h : e.source = Source.window ∧ e.data.eqMessageName = true)
    (ht : p.timeouts = fn :: rest) :
    handleMessage b e p =
      (invoke b fn { p with timeouts := rest }, { e with propagationStopped := true }) := by
  unfold handleMessage
  rw [if_pos h]
  simp only [ht]

theorem Extends.trans {p q r : Page} {i₁ s₁ i₂ s₂ : List Callback}
    (h₁ : Extends p q i₁ s₁) (h₂ : Extends q r i₂ s₂) :
    Extends p r (i₁ ++ i₂) (s₁ ++ s₂) := by
  obtain ⟨a₁, b₁, c₁⟩ := h₁
  obtain ⟨a₂, b₂, c₂⟩ := h₂
  refine ⟨by rw [a₂, a₁, List.append_assoc], by rw [b₂, b₁, List.append_assoc], ?_⟩
  rw [List.append_assoc, c₂, ← List.append_assoc, c₁, List.append_assoc]

theorem handleMessage_extends (b : Behaviour) (e : Event) (p : Page) :
    ∃ inv sch, Extends p (handleMessage b e p).1 inv sch := by
  by_cases h : e.source = Source.window ∧ e.data.eqMessageName = true
  · cases ht : p.timeouts with
    | nil =>
      rw [handleMessage_sentinel_nil b e p h ht]
      exact ⟨[], [], by simp [Extends]⟩
    | cons fn rest =>
      rw [handleMessage_sentinel_cons b e p fn rest h ht]
      refine ⟨[fn], scheduledBy (b p.invoked.length fn), ?_⟩
      simp [Extends, invoke_invoked, invoke_passed, invoke_timeouts, ht]
  · rw [handleMessage_of_not_sentinel b e p h]
    exact ⟨[], [], by simp [Extends]⟩

theorem step_extends (b : Behaviour) (s : Step) (p : Page) :
    ∃ inv sch, Extends p (step b s p) inv sch := by
  cases s with
  | setZeroTimeout fn =>
    exact ⟨[], [fn], by simp [Extends, step, setZeroTimeout, postMessage]⟩
  | post m => exact ⟨[], [], by simp [Extends, step]⟩
  | deliver =>
    cases hp : p.posted with
    | nil => exact ⟨[], [], by simp [Extends, step, hp]⟩
    | cons m rest =>
      obtain ⟨inv, sch, h⟩ :=
        handleMessage_extends b ⟨m.source, m.data, false⟩ { p with posted := rest }
      refine ⟨inv, sch, ?_⟩
      simpa [step, hp, Extends] using h

theorem run_nil (b : Behaviour) (p : Page) : run b [] p = p := rfl

theorem run_cons (b : Behaviour) (s : Step) (steps : List Step) (p : Page) :
    run b (s :: steps) p = run b steps (step b s p) := rfl

theorem run_extends (b : Behaviour) (steps : List Step) (p : Page) :
    ∃ inv sch, Extends p (run b steps p) inv sch := by
  induction steps generalizing p with
  | nil => exact ⟨[], [], by simp [Extends, run_nil]⟩
  | cons s steps ih =>
    obtain ⟨i₁, s₁, h₁⟩ := step_extends b s p
    obtain ⟨i₂, s₂, h₂⟩ := ih (step b s p)
    rw [run_cons]
    exact ⟨i₁ ++ i₂, s₁ ++ s₂, h₁.trans h₂⟩

theorem run_invariant (b : Behaviour) (steps : List Step) :
    (run b steps Page.initial).invoked ++ (run b steps Page.initial).timeouts
      = (run b steps Page.initial).passed := by
  obtain ⟨inv, sch, h₁, h₂, h₃⟩ := run_extends b steps Page.initial
  rw [h₁, h₂]
  simpa [Page.initial] using h₃


theorem countP_postedBy (as : List Action)
    (h : ∀ data, Action.postMessage data ∈ as → data.eqMessageName = false) :
    (postedBy as).countP Message.isSentinel = (scheduledBy as).length := by
  induction as with
  | nil => rfl
  | cons a as ih =>
    have ih' := ih (fun data hd => h data (List.mem_cons_of_mem _ hd))
    simp only [postedBy] at ih' ⊢
    cases a with
    | setZeroTimeout fn =>
      simp [scheduledBy, Message.isSentinel, JSValue.eqMessageName, List.countP_cons] at ih' ⊢
      exact ih'
    | postMessage data =>
      have hd : data.eqMessageName = false := h data (List.mem_cons_self _ _)
      simp [scheduledBy, Message.isSentinel, List.countP_cons, hd] at ih' ⊢
      exact ih'

theorem step_count (b : Behaviour) (hb : b.Quiet) (s : Step) (hs : s.quiet = true)
    (p : Page) (h : p.posted.countP Message.isSentinel = p.timeouts.length) :
    (step b s p).posted.countP Message.isSentinel = (step b s p).timeouts.length := by
  cases s with
  | setZeroTimeout fn =>
    simp [step, setZeroTimeout, postMessage, List.countP_append, Message.isSentinel,
      JSValue.eqMessageName, h]
  | post m =>
    simp only [Step.quiet, Bool.not_eq_true'] at hs
    simp [step, List.countP_append, List.countP_cons, hs, h]
  | deliver =>
    cases hp : p.posted with
    | nil => simpa [step, hp] using h
    | cons m rest =>
      rw [hp, List.countP_cons] at h
      simp only [step, hp]
      by_cases hm : m.source = Source.window ∧ m.data.eqMessageName = true
      · have hsent : m.isSentinel = true := by simp [Message.isSentinel, hm]
        simp only [hsent, if_true] at h
        cases ht : p.timeouts with
        | nil => rw [ht] at h; simp at h
        | cons fn rest' =>
          rw [ht] at h
          rw [handleMessage_sentinel_cons b ⟨m.source, m.data, false⟩ _ fn rest' hm rfl]
          simp only [invoke_posted, invoke_timeouts, List.countP_append, List.length_append]
          rw [countP_postedBy _ (hb _ _)]
          simp only [List.length_cons] at h
          omega
      · have hsent : m.isSentinel = false := by simp [Message.isSentinel, hm]
        rw [handleMessage_of_not_sentinel b ⟨m.source, m.data, false⟩ _ hm]
        simpa [hsent] using h

theorem run_count (b : Behaviour) (hb : b.Quiet) (steps : List Step)
    (hs : ∀ s ∈ steps, s.quiet = true) (p : Page)
    (h : p.posted.countP Message.isSentinel = p.timeouts.length) :
    (run b steps p).posted.countP Message.isSentinel = (run b steps p).timeouts.length := by
  induction steps generalizing p with
  | nil => simpa [run_nil] using h
  | cons s steps ih =>
    rw [run_cons]
    exact ih (fun t ht => hs t (List.mem_cons_of_mem _ ht)) _
      (step_count b hb s (hs s (List.mem_cons_self _ _)) p h)

theorem run_setZeroTimeout (b : Behaviour) (fns : List Callback) (p : Page) :
    (run b (fns.map Step.setZeroTimeout) p).timeouts = p.timeouts ++ fns ∧
    (run b (fns.map Step.setZeroTimeout) p).posted
      = p.posted ++ List.replicate fns.length ⟨Source.window, JSValue.string messageName⟩ ∧
    (run b (fns.map Step.setZeroTimeout) p).invoked = p.invoked := by
  induction fns generalizing p with
  | nil => simp [run_nil]
  | cons fn fns ih =>
    rw [List.map_cons, run_cons]
    obtain ⟨h₁, h₂, h₃⟩ := ih (step b (Step.setZeroTimeout fn) p)
    rw [h₁, h₂, h₃]
    simp [step, setZeroTimeout, postMessage, List.replicate_succ]

theorem rescheduling_quiet : rescheduling.Quiet := by
  intro n fn data
  unfold rescheduling
  split <;> simp

theorem eqMessageName_string : (JSValue.string messageName).eqMessageName = true := by
  simp [JSValue.eqMessageName]

/-! ## Lemmas on the error reporter -/

theorem hasTagName_body (doc : Document) (e : Element) :
    e.hasTagName doc (js "body") = decide (e.qualifiedName = js "body") := by
  have h₁ : js "body" ≠ js "*" := by decide
  have h₂ : asciiLowercase (js "body") = js "body" := by decide
  unfold Element.hasTagName
  rw [if_neg h₁, h₂]
  split <;> rfl

theorem getElementsByTagName_head (doc : Document) (q : JSString) (i : Nat) :
    (getElementsByTagName doc q)[0]? = some i ↔
      (∃ e, doc.elements[i]? = some e ∧ e.hasTagName doc q = true) ∧
      ∀ j, j < i → ∀ e, doc.elements[j]? = some e → e.hasTagName doc q = false := by
  rw [← List.head?_eq_getElem?]
  unfold getElementsByTagName
  rw [List.filter_head?, List.find?_range_eq_some]
  constructor
  · rintro ⟨hi, _, hlt⟩
    constructor
    · cases he : doc.elements[i]? with
      | none => simp [he] at hi
      | some e => exact ⟨e, rfl, by simpa [he] using hi⟩
    · intro j hj e he
      have := hlt j hj
      simpa [he] using this
  · rintro ⟨⟨e, he, hp⟩, hlt⟩
    refine ⟨by simp [he, hp], ?_, ?_⟩
    · rw [List.mem_range]
      exact (List.getElem?_eq_some.mp he).1
    · intro j hj
      cases hej : doc.elements[j]? with
      | none => simp
      | some e' => simpa using hlt j hj e' hej

theorem getElementsByTagName_head_none (doc : Document) (q : JSString) :
    (getElementsByTagName doc q)[0]? = none ↔
      ∀ e ∈ doc.elements, e.hasTagName doc q = false := by
  rw [← List.head?_eq_getElem?]
  unfold getElementsByTagName
  rw [List.filter_head?, List.find?_range_eq_none]
  constructor
  · intro h e he
    obtain ⟨i, hi, rfl⟩ := List.getElem_of_mem he
    have := h i hi
    simpa [List.getElem?_eq_getElem hi] using this
  · intro h i hi
    have := h _ (List.getElem_mem hi)
    simp [List.getElem?_eq_getElem hi, this]

theorem update_isHTML (doc : Document) (i : Nat) (f : Element → Element) :
    (doc.update i f).isHTML = doc.isHTML := rfl

theorem update_getElem? (doc : Document) (i j : Nat) (f : Element → Element) :
    (doc.update i f).elements[j]? =
      if j = i then (doc.elements[i]?).map f else doc.elements[j]? := by
  unfold Document.update
  cases he : doc.elements[i]? with
  | none =>
    by_cases hji : j = i
    · simp [hji, he]
    · simp [hji]
  | some e =>
    by_cases hji : j = i
    · subst hji
      have hlt := (List.getElem?_eq_some.mp he).1
      simp [List.getElem?_set_self hlt]
    · simp [hji, List.getElem?_set_ne (Ne.symm hji)]

theorem hasTagName_setAttributeNode (doc doc' : Document) (h : doc'.isHTML = doc.isHTML)
    (q : JSString) (attr : Attr) (e : Element) :
    (setAttributeNode attr e).hasTagName doc' q = e.hasTagName doc q := by
  simp [Element.hasTagName, setAttributeNode, h]

theorem getElementsByTagName_update (doc : Document) (i : Nat) (attr : Attr) (q : JSString) :
    getElementsByTagName (doc.update i (setAttributeNode attr)) q
      = getElementsByTagName doc q := by
  have hlen : (doc.update i (setAttributeNode attr)).elements.length
      = doc.elements.length := by
    unfold Document.update
    cases doc.elements[i]? <;> simp
  unfold getElementsByTagName
  rw [hlen]
  apply List.filter_congr
  intro j _
  rw [update_getElem?]
  by_cases hji : j = i
  · subst hji
    cases doc.elements[j]? with
    | none => simp
    | some e =>
      simp only [if_true, Option.map_some']
      exact hasTagName_setAttributeNode doc _ (update_isHTML doc j _) q attr e
  · simp only [if_neg hji]
    cases doc.elements[j]? with
    | none => rfl
    | some e => simp [Element.hasTagName, update_isHTML]

theorem onerror_of_body (large : Int → JSString) (doc : Document) (msg url : JSString)
    (line : Int) (i : Nat)
    (h : (getElementsByTagName doc (js "body"))[0]? = some i) :
    onerror large doc msg url line
      = Except.ok (doc.update i (setAttributeNode (errorNode large doc msg url line))) := by
  simp only [onerror, h, errorNode]

theorem onerror_of_no_body (large : Int → JSString) (doc : Document) (msg url : JSString)
    (line : Int)
    (h : (getElementsByTagName doc (js "body"))[0]? = none) :
    onerror large doc msg url line = Except.error JSError.TypeError := by
  simp only [onerror, h]

theorem body_update (doc : Document) (attr : Attr) (i : Nat)
    (h : (getElementsByTagName doc (js "body"))[0]? = some i) :
    (doc.update i (setAttributeNode attr)).body
      = (doc.elements[i]?).map (setAttributeNode attr) := by
  unfold Document.body
  rw [getElementsByTagName_update, h]
  simp only
  rw [update_getElem?, if_pos rfl]

theorem filter_setAttribute (attr : Attr) (l : List Attr)
    (h : (l.filter attr.sameName).length ≤ 1) :
    (setAttribute attr l).filter attr.sameName = [attr] := by
  induction l with
  | nil => simp [setAttribute, Attr.sameName]
  | cons a as ih =>
    unfold setAttribute
    by_cases ha : a.namespaceURI = attr.namespaceURI ∧ a.localName = attr.localName
    · have hs : attr.sameName a = true := by simp [Attr.sameName, ha]
      rw [if_pos ha]
      rw [List.filter_cons_of_pos hs] at h
      have hnil : as.filter attr.sameName = [] := by
        apply List.length_eq_zero.mp
        simp only [List.length_cons] at h
        omega
      rw [List.filter_cons_of_pos (by simp [Attr.sameName]), hnil]
    · have hs : ¬ attr.sameName a = true := by simp [Attr.sameName, ha]
      rw [if_neg ha, List.filter_cons_of_neg hs]
      rw [List.filter_cons_of_neg hs] at h
      exact ih h

theorem filter_sameName_of_nodup (attr : Attr) (l : List Attr)
    (h : (l.map (fun a => (a.namespaceURI, a.localName))).Nodup) :
    (l.filter attr.sameName).length ≤ 1 := by
  induction l with
  | nil => simp
  | cons a as ih =>
    rw [List.map_cons, List.nodup_cons] at h
    by_cases hs : attr.sameName a = true
    · rw [List.filter_cons_of_pos hs]
      have hnil : as.filter attr.sameName = [] := by
        rw [List.filter_eq_nil_iff]
        intro c hc hcs
        apply h.1
        rw [List.mem_map]
        refine ⟨c, hc, ?_⟩
        simp only [Attr.sameName, decide_eq_true_eq] at hs hcs
        rw [hs.1, hs.2, hcs.1, hcs.2]
      simp [hnil]
    · rw [List.filter_cons_of_neg hs]
      exact ih h.2

theorem isErrorMessage_eq_sameName (large : Int → JSString) (doc : Document)
    (msg url : JSString) (line : Int) :
    Attr.isErrorMessage doc = Attr.sameName (errorNode large doc msg url line) := by
  funext a
  simp [Attr.isErrorMessage, Attr.sameName, errorNode, createAttribute]

theorem find?_setAttribute (attr : Attr) (l : List Attr) :
    (setAttribute attr l).find? attr.sameName = some attr := by
  induction l with
  | nil => simp [setAttribute, Attr.sameName]
  | cons a as ih =>
    unfold setAttribute
    by_cases ha : a.namespaceURI = attr.namespaceURI ∧ a.localName = attr.localName
    · rw [if_pos ha]
      simp [Attr.sameName]
    · have hs : ¬ attr.sameName a = true := by simp [Attr.sameName, ha]
      rw [if_neg ha, List.find?_cons_of_neg _ hs]
      exact ih

theorem body_eq_some (doc : Document) (b : Element) (h : doc.body = some b) :
    ∃ i, (getElementsByTagName doc (js "body"))[0]? = some i ∧ doc.elements[i]? = some b := by
  unfold Document.body at h
  cases hi : (getElementsByTagName doc (js "body"))[0]? with
  | none => simp [hi] at h
  | some i => exact ⟨i, rfl, by simpa [hi] using h⟩

/-! ## The claims -/

/-- C1. `S.contains(T)` is true exactly when `T` occurs in `S` as a contiguous
substring; it is true for the empty `T`, and false when `T` is longer than `S`. -/
theorem contains_iff_infix (S T : JSString) :
    (contains S T = true ↔ T <:+: S) ∧
    contains S [] = true ∧
    (S.length < T.length → contains S T = false) := by
  have key : contains S T = true ↔ T <:+: S := by
    rw [contains_iff_find, infix_iff_window]
    constructor
    · rintro (rfl | h)
      · exact ⟨0, by simp, by simp⟩
      · exact h
    · exact Or.inr
  refine ⟨key, ?_, ?_⟩
  · rw [contains_iff_find]; exact Or.inl rfl
  · intro hlen
    cases hc : contains S T with
    | false => rfl
    | true =>
      have := (key.mp hc).length_le
      omega

/-- C2. From the empty queue, after any finite run of calls of `setZeroTimeout`
(by the page or by running callbacks), posted messages and deliveries, the
callbacks run so far are a prefix of the callbacks passed to `setZeroTimeout`,
in the same order: the `i`-th invocation runs the `i`-th callback passed, and
the callbacks not yet run are exactly the queue. -/
theorem invoked_prefix_of_passed (b : Behaviour) (steps : List Step) :
    (run b steps Page.initial).invoked <+: (run b steps Page.initial).passed ∧
    (run b steps Page.initial).invoked ++ (run b steps Page.initial).timeouts
      = (run b steps Page.initial).passed ∧
    (∀ i, i < (run b steps Page.initial).invoked.length →
      (run b steps Page.initial).invoked[i]? = (run b steps Page.initial).passed[i]?) := by
  have h := run_invariant b steps
  refine ⟨⟨_, h⟩, h, ?_⟩
  intro i hi
  rw [← h, List.getElem?_append_left hi]

/-- C3, as stated, fails: a callback that passes another callback to
`setZeroTimeout` while it runs leaves that callback in the queue, so the queue
is not empty after the one delivery. -/
theorem delivery_leaves_rescheduled :
    (run rescheduling [Step.setZeroTimeout 0] Page.initial).timeouts = [0] ∧
    (run rescheduling [Step.setZeroTimeout 0, Step.deliver] Page.initial).invoked = [0] ∧
    (run rescheduling [Step.setZeroTimeout 0, Step.deliver] Page.initial).timeouts = [1] ∧
    ¬ (run rescheduling [Step.setZeroTimeout 0, Step.deliver] Page.initial).timeouts = [] := by
  decide

/-- C3, amended. From the empty queue, `setZeroTimeout(f)` does not run `f`: the
queue is `[f]` and exactly one sentinel message is posted. Delivering that
message runs `f` exactly once and leaves in the queue exactly the callbacks that
`f` passed to `setZeroTimeout` while it ran, so the queue is empty when `f`
schedules nothing. -/
theorem setZeroTimeout_then_deliver (b : Behaviour) (f : Callback) :
    (setZeroTimeout f Page.initial).invoked = [] ∧
    (setZeroTimeout f Page.initial).timeouts = [f] ∧
    (setZeroTimeout f Page.initial).posted = [⟨Source.window, JSValue.string messageName⟩] ∧
    (step b Step.deliver (setZeroTimeout f Page.initial)).invoked = [f] ∧
    (step b Step.deliver (setZeroTimeout f Page.initial)).timeouts = scheduledBy (b 0 f) ∧
    (scheduledBy (b 0 f) = [] →
      (step b Step.deliver (setZeroTimeout f Page.initial)).timeouts = []) := by
  have hstep : step b Step.deliver (setZeroTimeout f Page.initial)
      = invoke b f { Page.initial with passed := [f] } := by
    simp only [step, setZeroTimeout, postMessage, Page.initial, List.nil_append]
    rw [handleMessage_sentinel_cons b _ _ f [] ⟨rfl, eqMessageName_string⟩ rfl]
  refine ⟨rfl, rfl, rfl, ?_, ?_, ?_⟩
  · rw [hstep, invoke_invoked]; rfl
  · rw [hstep, invoke_timeouts]; rfl
  · intro h
    rw [hstep, invoke_timeouts]; exact h

/-- C4, as stated, fails: the test of source line 18 is the loose `==`, so a
message of the page itself whose payload is the array `["zero-timeout-message"]`
(a payload that is not the sentinel string) passes it: the head callback is
taken off the queue and run, and the propagation of the event is stopped. -/
theorem array_payload_is_handled :
    (arrayEvent.source ≠ Source.window ∨ arrayEvent.data ≠ JSValue.string messageName) ∧
    (handleMessage rescheduling arrayEvent samplePage).1.timeouts = [2, 3, 1] ∧
    (handleMessage rescheduling arrayEvent samplePage).1.timeouts ≠ samplePage.timeouts ∧
    (handleMessage rescheduling arrayEvent samplePage).1.invoked = [5, 0] ∧
    (handleMessage rescheduling arrayEvent samplePage).1.invoked ≠ samplePage.invoked ∧
    (handleMessage rescheduling arrayEvent samplePage).2.propagationStopped = true ∧
    arrayEvent.propagationStopped = false := by
  decide

/-- C4, amended. A message event whose source is not the window, or whose
payload does not equal the sentinel under the `==` of source line 18 (it is
neither the sentinel string nor an object that converts to it), leaves the page
as it is (queue unchanged, nothing run) and the event as it is (propagation not
stopped). -/
theorem handleMessage_ignores (b : Behaviour) (e : Event) (p : Page)
    (h : e.source ≠ Source.window ∨ e.data.eqMessageName = false) :
    (handleMessage b e p).1.timeouts = p.timeouts ∧
    (handleMessage b e p).1.invoked = p.invoked ∧
    (handleMessage b e p).2.propagationStopped = e.propagationStopped ∧
    handleMessage b e p = (p, e) := by
  have hn : ¬ (e.source = Source.window ∧ e.data.eqMessageName = true) := by
    rintro ⟨h₁, h₂⟩
    rcases h with h | h
    · exact h h₁
    · rw [h] at h₂; cases h₂
  rw [handleMessage_of_not_sentinel b e p hn]
  exact ⟨rfl, rfl, rfl, rfl⟩

/-- An instance: a message from another window that carries the sentinel string,
on the sample page. -/
theorem handleMessage_ignores_witness :
    (foreignEvent.source ≠ Source.window ∨ foreignEvent.data.eqMessageName = false) ∧
    ((handleMessage rescheduling foreignEvent samplePage).1.timeouts = samplePage.timeouts ∧
      (handleMessage rescheduling foreignEvent samplePage).1.invoked = samplePage.invoked ∧
      (handleMessage rescheduling foreignEvent samplePage).2.propagationStopped
        = foreignEvent.propagationStopped ∧
      handleMessage rescheduling foreignEvent samplePage = (samplePage, foreignEvent)) :=
  ⟨by decide, handleMessage_ignores rescheduling foreignEvent samplePage (by decide)⟩

/-- C6. On a message from the window itself that carries the sentinel,
`handleMessage` stops the propagation of the event; with a non-empty queue it
takes the head callback off the queue and runs it, once, and the callbacks that
were behind it stay at the front of the queue in their order (followed by what
the callback scheduled meanwhile); with an empty queue it runs nothing and the
page stays as it is. -/
theorem handleMessage_runs_head (b : Behaviour) (e : Event) (p : Page)
    (hsrc : e.source = Source.window) (hdata : e.data = JSValue.string messageName) :
    (handleMessage b e p).2.propagationStopped = true ∧
    (∀ fn rest, p.timeouts = fn :: rest →
      (handleMessage b e p).1.invoked = p.invoked ++ [fn] ∧
      (handleMessage b e p).1.timeouts = rest ++ scheduledBy (b p.invoked.length fn) ∧
      rest <+: (handleMessage b e p).1.timeouts) ∧
    (p.timeouts = [] →
      (handleMessage b e p).1 = p ∧ (handleMessage b e p).1.timeouts = []) := by
  refine ⟨?_, ?_, ?_⟩
  · cases ht : p.timeouts with
    | nil => rw [handleMessage_sentinel_nil b e p ⟨hsrc, by rw [hdata]; exact eqMessageName_string⟩ ht]
    | cons fn rest => rw [handleMessage_sentinel_cons b e p fn rest ⟨hsrc, by rw [hdata]; exact eqMessageName_string⟩ ht]
  · intro fn rest ht
    rw [handleMessage_sentinel_cons b e p fn rest ⟨hsrc, by rw [hdata]; exact eqMessageName_string⟩ ht]
    refine ⟨invoke_invoked b fn _, invoke_timeouts b fn _, ?_⟩
    rw [invoke_timeouts]
    exact List.prefix_append _ _
  · intro ht
    rw [handleMessage_sentinel_nil b e p ⟨hsrc, by rw [hdata]; exact eqMessageName_string⟩ ht]
    exact ⟨rfl, ht⟩

/-- An instance: the sentinel event on the sample page. -/
theorem handleMessage_runs_head_witness :
    sentinelEvent.source = Source.window ∧
    sentinelEvent.data = JSValue.string messageName ∧
    ((handleMessage rescheduling sentinelEvent samplePage).2.propagationStopped = true ∧
      (∀ fn rest, samplePage.timeouts = fn :: rest →
        (handleMessage rescheduling sentinelEvent samplePage).1.invoked
          = samplePage.invoked ++ [fn] ∧
        (handleMessage rescheduling sentinelEvent samplePage).1.timeouts
          = rest ++ scheduledBy (rescheduling samplePage.invoked.length fn) ∧
        rest <+: (handleMessage rescheduling sentinelEvent samplePage).1.timeouts) ∧
      (samplePage.timeouts = [] →
        (handleMessage rescheduling sentinelEvent samplePage).1 = samplePage ∧
        (handleMessage rescheduling sentinelEvent samplePage).1.timeouts = [])) :=
  ⟨rfl, rfl, handleMessage_runs_head rescheduling sentinelEvent samplePage rfl rfl⟩

/-- C7. Each call of `setZeroTimeout` appends one callback at the tail of the
queue and posts one sentinel message, so `k` calls from the empty state leave
the `k` callbacks queued in call order and `k` sentinel messages pending. In a
run where the sentinel is posted by `setZeroTimeout` only, after every number of
steps the undelivered sentinel messages are as many as the queue is long, so the
queue is empty once none is left. -/
theorem sentinels_match_queue (b : Behaviour) (steps : List Step)
    (hb : b.Quiet) (hs : ∀ s ∈ steps, s.quiet = true) :
    (∀ (p : Page) (fn : Callback),
      (setZeroTimeout fn p).timeouts = p.timeouts ++ [fn] ∧
      (setZeroTimeout fn p).posted
        = p.posted ++ [⟨Source.window, JSValue.string messageName⟩]) ∧
    (∀ fns : List Callback,
      (run b (fns.map Step.setZeroTimeout) Page.initial).timeouts = fns ∧
      (run b (fns.map Step.setZeroTimeout) Page.initial).posted
        = List.replicate fns.length ⟨Source.window, JSValue.string messageName⟩) ∧
    (∀ k, (run b (steps.take k) Page.initial).posted.countP Message.isSentinel
        = (run b (steps.take k) Page.initial).timeouts.length) ∧
    ((run b steps Page.initial).posted.countP Message.isSentinel = 0 →
      (run b steps Page.initial).timeouts = []) := by
  refine ⟨fun p fn => ⟨rfl, rfl⟩, ?_, ?_, ?_⟩
  · intro fns
    obtain ⟨h₁, h₂, _⟩ := run_setZeroTimeout b fns Page.initial
    exact ⟨by simpa [Page.initial] using h₁, by simpa [Page.initial] using h₂⟩
  · intro k
    exact run_count b hb (steps.take k) (fun s h => hs s (List.mem_of_mem_take h))
      Page.initial rfl
  · intro h0
    have h := run_count b hb steps hs Page.initial rfl
    rw [h0] at h
    exact List.length_eq_zero.mp h.symm

/-- An instance: the sample run with the rescheduling callback. -/
theorem sentinels_match_queue_witness :
    rescheduling.Quiet ∧ (∀ s ∈ sampleRun, s.quiet = true) ∧
    ((∀ (p : Page) (fn : Callback),
        (setZeroTimeout fn p).timeouts = p.timeouts ++ [fn] ∧
        (setZeroTimeout fn p).posted
        = p.posted ++ [⟨Source.window, JSValue.string messageName⟩]) ∧
      (∀ fns : List Callback,
        (run rescheduling (fns.map Step.setZeroTimeout) Page.initial).timeouts = fns ∧
        (run rescheduling (fns.map Step.setZeroTimeout) Page.initial).posted
          = List.replicate fns.length ⟨Source.window, JSValue.string messageName⟩) ∧
      (∀ k, (run rescheduling (sampleRun.take k) Page.initial).posted.countP Message.isSentinel
          = (run rescheduling (sampleRun.take k) Page.initial).timeouts.length) ∧
      ((run rescheduling sampleRun Page.initial).posted.countP Message.isSentinel = 0 →
        (run rescheduling sampleRun Page.initial).timeouts = [])) :=
  ⟨rescheduling_quiet, by decide,
    sentinels_match_queue rescheduling sampleRun rescheduling_quiet (by decide)⟩

/-- C10. When the callback `f` at the head of the queue passes `g` to
`setZeroTimeout` while `handleMessage` runs it: `f` is off the queue before its
body starts; `g` lands behind every callback that was still queued; the
dispatch runs `f` and nothing else; and in any later run, `f` is not run again
unless it was queued more than once or is passed to `setZeroTimeout` again. -/
theorem reentrant_setZeroTimeout (b : Behaviour) (e : Event) (p : Page)
    (f g : Callback) (rest : List Callback)
    (hsrc : e.source = Source.window) (hdata : e.data = JSValue.string messageName)
    (hq : p.timeouts = f :: rest)
    (hg : Action.setZeroTimeout g ∈ b p.invoked.length f) :
    (handleMessage b e p).1 = invoke b f { p with timeouts := rest } ∧
    (∃ before after, (handleMessage b e p).1.timeouts = rest ++ before ++ g :: after) ∧
    (handleMessage b e p).1.invoked = p.invoked ++ [f] ∧
    (∀ steps, ∃ inv sch,
      (run b steps (handleMessage b e p).1).invoked = (handleMessage b e p).1.invoked ++ inv ∧
      (run b steps (handleMessage b e p).1).passed = (handleMessage b e p).1.passed ++ sch ∧
      (f ∉ rest → f ∉ scheduledBy (b p.invoked.length f) → f ∉ sch → f ∉ inv)) := by
  have hstep := handleMessage_sentinel_cons b e p f rest ⟨hsrc, by rw [hdata]; exact eqMessageName_string⟩ hq
  have hmem : g ∈ scheduledBy (b p.invoked.length f) := by
    unfold scheduledBy
    rw [List.mem_filterMap]
    exact ⟨_, hg, rfl⟩
  have htime : (handleMessage b e p).1.timeouts
      = rest ++ scheduledBy (b p.invoked.length f) := by
    rw [hstep]; simp only [invoke_timeouts]
  refine ⟨by rw [hstep], ?_, ?_, ?_⟩
  · obtain ⟨before, after, hsplit⟩ := List.append_of_mem hmem
    exact ⟨before, after, by rw [htime, hsplit, List.append_assoc]⟩
  · rw [hstep]; simp only [invoke_invoked]
  · intro steps
    obtain ⟨inv, sch, h₁, h₂, h₃⟩ := run_extends b steps (handleMessage b e p).1
    refine ⟨inv, sch, h₁, h₂, ?_⟩
    intro hrest hsched hsch hinv
    have : f ∈ inv ++ (run b steps (handleMessage b e p).1).timeouts :=
      List.mem_append_left _ hinv
    rw [h₃, htime] at this
    simp only [List.mem_append] at this
    rcases this with (h | h) | h
    · exact hrest h
    · exact hsched h
    · exact hsch h

/-- An instance: callback 0 at the head of the sample page schedules callback 1. -/
theorem reentrant_setZeroTimeout_witness :
    sentinelEvent.source = Source.window ∧
    sentinelEvent.data = JSValue.string messageName ∧
    samplePage.timeouts = 0 :: [2, 3] ∧
    Action.setZeroTimeout 1 ∈ rescheduling samplePage.invoked.length 0 ∧
    ((handleMessage rescheduling sentinelEvent samplePage).1
        = invoke rescheduling 0 { samplePage with timeouts := [2, 3] } ∧
      (∃ before after,
        (handleMessage rescheduling sentinelEvent samplePage).1.timeouts
          = [2, 3] ++ before ++ 1 :: after) ∧
      (handleMessage rescheduling sentinelEvent samplePage).1.invoked
        = samplePage.invoked ++ [0] ∧
      (∀ steps, ∃ inv sch,
        (run rescheduling steps (handleMessage rescheduling sentinelEvent samplePage).1).invoked
          = (handleMessage rescheduling sentinelEvent samplePage).1.invoked ++ inv ∧
        (run rescheduling steps (handleMessage rescheduling sentinelEvent samplePage).1).passed
          = (handleMessage rescheduling sentinelEvent samplePage).1.passed ++ sch ∧
        (0 ∉ [2, 3] → 0 ∉ scheduledBy (rescheduling samplePage.invoked.length 0) →
          0 ∉ sch → 0 ∉ inv))) :=
  ⟨rfl, rfl, rfl, by decide,
    reentrant_setZeroTimeout rescheduling sentinelEvent samplePage 0 1 [2, 3] rfl rfl rfl
      (by decide)⟩


/-- C5. On a document with a `body` element, for every message, URL and integer
line number (an integer a Number holds exactly, of magnitude at most 2^53), the
handler leaves the error attribute of the first `body` with the value
`msg + "\n  at line number " + decimal(line) + " (URL: " + url + ")"`;
`("Boom", "x.js", 42)` gives `"Boom\n  at line number 42 (URL: x.js)"`. -/
theorem onerror_sets_value (large : Int → JSString) (doc : Document) (msg url : JSString)
    (line : Int) (b : Element)
    (hline : line.natAbs ≤ 2 ^ 53) (hbody : doc.body = some b) :
    (∃ doc' b', onerror large doc msg url line = Except.ok doc' ∧ doc'.body = some b' ∧
      ((b'.errorAttributes doc).head?).map Attr.value
        = some (msg ++ js "\n  at line number " ++ decimalInt line
            ++ js " (URL: " ++ url ++ js ")")) ∧
    nodeValue sampleLarge (js "Boom") (js "x.js") 42 = js "Boom\n  at line number 42 (URL: x.js)" := by
  refine ⟨?_, by decide⟩
  obtain ⟨i, hi, hb⟩ := body_eq_some doc b hbody
  refine ⟨_, setAttributeNode (errorNode large doc msg url line) b,
    onerror_of_body large doc msg url line i hi, ?_, ?_⟩
  · rw [body_update doc _ i hi, hb]; rfl
  · unfold Element.errorAttributes
    rw [List.filter_head?, isErrorMessage_eq_sameName large doc msg url line]
    simp only [setAttributeNode]
    rw [find?_setAttribute]
    simp only [Option.map_some', errorNode, nodeValue, NumberToString, if_pos hline]

/-- An instance: the error of the example on the sample document. -/
theorem onerror_sets_value_witness :
    (42 : Int).natAbs ≤ 2 ^ 53 ∧ sampleDocument.body = some sampleBody ∧
    ((∃ doc' b', onerror sampleLarge sampleDocument (js "Boom") (js "x.js") 42 = Except.ok doc' ∧
        doc'.body = some b' ∧
        ((b'.errorAttributes sampleDocument).head?).map Attr.value
          = some (js "Boom" ++ js "\n  at line number " ++ decimalInt 42
              ++ js " (URL: " ++ js "x.js" ++ js ")")) ∧
      nodeValue sampleLarge (js "Boom") (js "x.js") 42 = js "Boom\n  at line number 42 (URL: x.js)") :=
  ⟨by decide, by decide,
    onerror_sets_value sampleLarge sampleDocument (js "Boom") (js "x.js") 42 sampleBody
      (by decide) (by decide)⟩

/-- C8. After two successive runs of the handler on a document with a `body`
element (whose attribute list, as the DOM keeps it, has no two attributes of one
name), the first `body` carries exactly one error attribute, and its value is
the formatted text of the second error,
`msg₂ + "\n  at line number " + decimal(line₂) + " (URL: " + url₂ + ")"`,
whatever the first error was (the second line number an integer a Number holds
exactly, of magnitude at most 2^53). -/
theorem second_error_replaces_first (large : Int → JSString) (doc : Document)
    (msg₁ url₁ : JSString) (line₁ : Int)
    (msg₂ url₂ : JSString) (line₂ : Int) (b : Element)
    (hline : line₂.natAbs ≤ 2 ^ 53) (hbody : doc.body = some b) (hwf : b.WellFormed) :
    ∃ doc₁ doc₂ b₂,
      onerror large doc msg₁ url₁ line₁ = Except.ok doc₁ ∧
      onerror large doc₁ msg₂ url₂ line₂ = Except.ok doc₂ ∧
      doc₂.body = some b₂ ∧
      (b₂.errorAttributes doc₂).length = 1 ∧
      (b₂.errorAttributes doc₂).map Attr.value
        = [msg₂ ++ js "\n  at line number " ++ decimalInt line₂
            ++ js " (URL: " ++ url₂ ++ js ")"] := by
  obtain ⟨i, hi, hb⟩ := body_eq_some doc b hbody
  have h₁ := onerror_of_body large doc msg₁ url₁ line₁ i hi
  have hi₁ : (getElementsByTagName
      (doc.update i (setAttributeNode (errorNode large doc msg₁ url₁ line₁))) (js "body"))[0]?
      = some i := by
    rw [getElementsByTagName_update]; exact hi
  have h₂ := onerror_of_body large _ msg₂ url₂ line₂ i hi₁
  have hnode : errorNode large
      (doc.update i (setAttributeNode (errorNode large doc msg₁ url₁ line₁)))
      msg₂ url₂ line₂ = errorNode large doc msg₂ url₂ line₂ := rfl
  rw [hnode] at h₂
  have hb₂ := body_update _ (errorNode large doc msg₂ url₂ line₂) i hi₁
  rw [update_getElem?, if_pos rfl, hb] at hb₂
  have hfirst := filter_setAttribute (errorNode large doc msg₁ url₁ line₁) b.attributes
    (filter_sameName_of_nodup _ _ hwf)
  have hsame : Attr.sameName (errorNode large doc msg₂ url₂ line₂)
      = Attr.sameName (errorNode large doc msg₁ url₁ line₁) := by
    rw [← isErrorMessage_eq_sameName large doc msg₂ url₂ line₂,
      ← isErrorMessage_eq_sameName large doc msg₁ url₁ line₁]
  have hsecond := filter_setAttribute (errorNode large doc msg₂ url₂ line₂)
    (setAttribute (errorNode large doc msg₁ url₁ line₁) b.attributes)
    (by rw [hsame, hfirst]; simp)
  have hattrs : Element.errorAttributes
      ((doc.update i (setAttributeNode (errorNode large doc msg₁ url₁ line₁))).update i
        (setAttributeNode (errorNode large doc msg₂ url₂ line₂)))
      (setAttributeNode (errorNode large doc msg₂ url₂ line₂)
        (setAttributeNode (errorNode large doc msg₁ url₁ line₁) b))
      = [errorNode large doc msg₂ url₂ line₂] := by
    unfold Element.errorAttributes
    have hdoc : Attr.isErrorMessage
        ((doc.update i (setAttributeNode (errorNode large doc msg₁ url₁ line₁))).update i
          (setAttributeNode (errorNode large doc msg₂ url₂ line₂)))
        = Attr.isErrorMessage doc := rfl
    rw [hdoc, isErrorMessage_eq_sameName large doc msg₂ url₂ line₂]
    exact hsecond
  refine ⟨_, _, _, h₁, h₂, hb₂, ?_, ?_⟩
  · rw [hattrs]; rfl
  · rw [hattrs]
    simp only [List.map_cons, List.map_nil, errorNode, nodeValue, NumberToString, if_pos hline]

/-- An instance: two different errors on the sample document, whose first `body`
already carries an error attribute; the text left is that of the second. -/
theorem second_error_replaces_first_witness :
    (42 : Int).natAbs ≤ 2 ^ 53 ∧
    sampleDocument.body = some sampleBody ∧ sampleBody.WellFormed ∧
    (∃ doc₁ doc₂ b₂,
      onerror sampleLarge sampleDocument (js "first") (js "a.js") 7 = Except.ok doc₁ ∧
      onerror sampleLarge doc₁ (js "Boom") (js "x.js") 42 = Except.ok doc₂ ∧
      doc₂.body = some b₂ ∧
      (b₂.errorAttributes doc₂).length = 1 ∧
      (b₂.errorAttributes doc₂).map Attr.value
        = [js "Boom" ++ js "\n  at line number " ++ decimalInt 42
            ++ js " (URL: " ++ js "x.js" ++ js ")"]) :=
  ⟨by decide, by decide, by unfold Element.WellFormed; decide,
    second_error_replaces_first sampleLarge sampleDocument (js "first") (js "a.js") 7
      (js "Boom") (js "x.js") 42 sampleBody (by decide) (by decide)
      (by unfold Element.WellFormed; decide)⟩

/-- C9. The handler throws exactly when the document has no `body` element; when
there is one it completes, and the document it leaves differs from the one it
found only in the attribute list of the first `body` element. -/
theorem onerror_throws_iff_no_body (large : Int → JSString) (doc : Document)
    (msg url : JSString) (line : Int) :
    ((∃ err, onerror large doc msg url line = Except.error err) ↔
      ∀ e ∈ doc.elements, e.qualifiedName ≠ js "body") ∧
    ((∃ e ∈ doc.elements, e.qualifiedName = js "body") →
      ∃ i e attrs,
        doc.elements[i]? = some e ∧ e.qualifiedName = js "body" ∧
        (∀ j, j < i → ∀ e', doc.elements[j]? = some e' → e'.qualifiedName ≠ js "body") ∧
        onerror large doc msg url line = Except.ok
          { doc with elements := doc.elements.set i { e with attributes := attrs } }) := by
  constructor
  · constructor
    · rintro ⟨err, herr⟩
      cases hi : (getElementsByTagName doc (js "body"))[0]? with
      | none =>
        intro e he
        have := (getElementsByTagName_head_none doc (js "body")).mp hi e he
        rw [hasTagName_body] at this
        simpa using this
      | some i =>
        rw [onerror_of_body large doc msg url line i hi] at herr
        cases herr
    · intro h
      refine ⟨JSError.TypeError, onerror_of_no_body large doc msg url line ?_⟩
      rw [getElementsByTagName_head_none]
      intro e he
      rw [hasTagName_body]
      simpa using h e he
  · rintro ⟨e₀, he₀, hq₀⟩
    cases hi : (getElementsByTagName doc (js "body"))[0]? with
    | none =>
      have := (getElementsByTagName_head_none doc (js "body")).mp hi e₀ he₀
      rw [hasTagName_body] at this
      simp [hq₀] at this
    | some i =>
      obtain ⟨⟨e, he, hp⟩, hlt⟩ := (getElementsByTagName_head doc (js "body") i).mp hi
      rw [hasTagName_body] at hp
      refine ⟨i, e, setAttribute (errorNode large doc msg url line) e.attributes, he,
        by simpa using hp, ?_, ?_⟩
      · intro j hj e' he'
        have := hlt j hj e' he'
        rw [hasTagName_body] at this
        simpa using this
      · rw [onerror_of_body large doc msg url line i hi]
        congr 1
        unfold Document.update
        rw [he]
        rfl


end Abmash
